import Mathlib

/-!
Shallow embedding of the meeting recording & summarization pipeline of
`src/app/actions/Summary.ts` (module-level state `participantData` /
`meetingStartTime`, the chunk-store operations `Init`,
`setNewParticipantServerAction`, `setParticipantBlobChunk`, the
transcription orchestrator `transcribeWithAssemblyAI`, the summarization
orchestrator `summarizeWithHuggingFace`, and the session controller
`stopRecorder` / `stopMeeting` / `saveMeetingSummary`).

External collaborators (the speech-to-text HTTP service, the summarization
HTTP service, the member-name directory, the auth context and the
persistence sink) are modeled as oracles supplying the values those HTTP
calls would produce; the control flow acting on those values is translated
from the TypeScript source.  JavaScript runtime primitives that the source
relies on (string `trim`, `split` on a character class, `includes`,
`slice`/`substring`, truthiness of numbers and strings, `||` and `??`) are
modeled explicitly below, so that each use site in the translation matches
the semantics of the corresponding JS expression.

Timestamps are JS `number` millisecond values, modeled as `Int` (`NaN` and
fractional values are not modeled).  ISO-8601 rendering of the start/end
instants (`new Date(t).toISOString()`) is presentation only and the model
carries the instants themselves.  String lengths count characters; all
inputs exercised here are ASCII, where this agrees with JS UTF-16 lengths.
-/

namespace Virtudesk

/-! ### JavaScript runtime primitives -/

/-- Whitespace recognized by JS `String.prototype.trim` (the ASCII white
space characters plus NBSP and the BOM; other Unicode space separators are
not modeled, no input here contains them). -/
def jsWhitespaceChar (c : Char) : Bool :=
  c = ' ' || c = '\t' || c = '\n' || c = '\r' || c = '\x0b' || c = '\x0c' ||
  c = '\u00A0' || c = '\uFEFF'

/-- JS `s.trim()`: drop whitespace from both ends. -/
def jsTrim (s : String) : String :=
  String.mk (((s.data.dropWhile jsWhitespaceChar).reverse.dropWhile jsWhitespaceChar).reverse)

/-- Segments of a character list cut at every separator character, keeping
empty segments, as JS `String.prototype.split` with a single-character
class regex does. -/
def splitSegs (p : Char → Bool) : List Char → List (List Char)
  | [] => [[]]
  | c :: cs =>
    match splitSegs p cs with
    | [] => [[]]
    | seg :: segs => if p c then [] :: seg :: segs else (c :: seg) :: segs

/-- JS `s.split(regex)` for a single-character-class regex described by the
predicate `p`. -/
def jsSplitOn (p : Char → Bool) (s : String) : List String :=
  (splitSegs p s.data).map (fun l => String.mk l)

/-- The sentence-terminating punctuation class `[.?!]` used by both
key-point pipelines in the source. -/
def sentencePunct (c : Char) : Bool := c = '.' || c = '?' || c = '!'

/-- Does `seg` occur as a contiguous segment of the character list? -/
def listIncludesSeg (needle : List Char) : List Char → Bool
  | [] => needle.isPrefixOf []
  | c :: cs => needle.isPrefixOf (c :: cs) || listIncludesSeg needle cs

/-- JS `hay.includes(needle)`. -/
def jsIncludes (hay needle : String) : Bool :=
  listIncludesSeg needle.data hay.data

/-- JS `s.startsWith(t)`. -/
def jsStartsWith (s t : String) : Bool := t.data.isPrefixOf s.data

/-- JS `s.slice(0, n)` / `s.substring(0, n)`. -/
def jsTake (s : String) (n : Nat) : String := String.mk (s.data.take n)

/-- JS `a || b` for an optionally-present string `a` (absent and the empty
string are both falsy). -/
def jsOr (a : Option String) (b : String) : String :=
  match a with
  | none => b
  | some s => if s = "" then b else s

/-- JS truthiness of an optionally-present string (`undefined`/`null` and
`""` are falsy). -/
def jsFalsyStr (x : Option String) : Bool := x.getD "" = ""

/-- JS truthiness test `!t` for the `meetingStartTime : number | null`
slot: `null` and `0` are both falsy (`NaN` is not modeled). -/
def jsFalsyTime : Option Int → Bool
  | none => true
  | some t => t = 0

/-! ### Data model (`participantDataType`, `MeetingSummary`, lines 38-61) -/

/-- One captured audio fragment.  Only its byte size drives control flow
(`combined.size === 0` checks); its bytes are carried opaquely by the
transcription oracle. -/
structure Blob where
  size : Nat
deriving DecidableEq, Repr

/-- `participantDataType` (lines 38-44). -/
structure ParticipantRecord where
  id : String
  name : Option String
  offset : Int
  chunks : List Blob
  isFinished : Bool
deriving DecidableEq, Repr

/-- One element of `MeetingSummary.transcriptions` (line 51). -/
structure Entry where
  id : String
  name : Option String
  text : String
deriving DecidableEq, Repr

/-- `MeetingSummary` (lines 46-55).  `participantNames` is the JS record as
an insertion-ordered association list; `startTime`/`endTime` carry the
instants that the source renders with `toISOString()`. -/
structure MeetingSummary where
  summary : String
  keyPoints : List String
  participants : List String
  participantNames : List (String × String)
  transcriptions : List Entry
  duration : Int
  startTime : Int
  endTime : Int
deriving DecidableEq, Repr

/-- The module-level mutable state (lines 60-61): the chunk store keyed by
participant id (a JS object, insertion ordered, keys unique) and the
session clock. -/
structure Store where
  meetingStartTime : Option Int
  participantData : List ParticipantRecord
deriving DecidableEq, Repr

/-- The state as of module load: no clock, no participant records. -/
def emptyStore : Store := ⟨none, []⟩

/-- The ids present in the chunk store, in insertion order. -/
def keysOf (st : Store) : List String := st.participantData.map (fun p => p.id)

/-! ### Chunk store operations (lines 352-391) -/

/-- `Init(startTime)` (lines 352-357): set the session clock and clear
every participant record.  The prior store contents are discarded. -/
def Init (startTime : Int) (_st : Store) : Store :=
  { meetingStartTime := some startTime, participantData := [] }

/-- Assignment `participantData[p.id] = r` on a JS object: replace in
place when the key exists (keeping its position), append otherwise. -/
def upsert (l : List ParticipantRecord) (p : ParticipantRecord) : List ParticipantRecord :=
  if l.any (fun q => q.id == p.id) then
    l.map (fun q => if q.id == p.id then p else q)
  else l ++ [p]

/-- `setNewParticipantServerAction` (lines 359-363): upsert a fresh record
with empty chunk list and `isFinished = false`. -/
def setNewParticipantServerAction (p : ParticipantRecord) (st : Store) : Store :=
  { st with participantData := upsert st.participantData { p with chunks := [], isFinished := false } }

/-- `setParticipantBlobChunk` (lines 365-391): lazily set the session
clock when it is JS-falsy, auto-register an unknown participant, then
append the fragment and update the last-seen offset. -/
def setParticipantBlobChunk (id : String) (b : Blob) (ts : Int) (st : Store) : Store :=
  let mst := if jsFalsyTime st.meetingStartTime then some ts else st.meetingStartTime
  let ps0 := if st.participantData.any (fun q => q.id == id) then st.participantData
             else st.participantData ++ [⟨id, none, ts, [], false⟩]
  let ps1 := ps0.map (fun q =>
    if q.id == id then { q with chunks := q.chunks ++ [b], offset := ts } else q)
  { meetingStartTime := mst, participantData := ps1 }

/-- Size of the combined blob `new Blob(p.chunks, ...)`: the sum of the
fragment sizes. -/
def blobsSize (bs : List Blob) : Nat := (bs.map (fun b => b.size)).sum

/-! ### Transcription orchestrator (`transcribeWithAssemblyAI`, lines 174-223)

The AssemblyAI HTTP service is an oracle: the upload call either throws or
yields an upload URL, the job-submission call either throws or yields a job
(id and initial status), and each status poll either throws or yields a
poll payload.  The polling loop consumes the finite list of poll responses;
a run that exhausts the list while the status is still non-terminal models
the source's unbounded `while` loop never terminating, and is reported as
`none` ("the call does not return"). -/

/-- The JSON payload of one `GET /v2/transcript/{id}` poll. -/
structure PollResult where
  status : String
  text : Option String
  error : Option String
deriving DecidableEq, Repr

/-- Oracle for one transcription job.  `Except.error` models a thrown
exception (network failure, malformed body); `submit` yields the job id
and the initial `job.status`. -/
structure TranscribeOracle where
  upload : Except String String
  submit : Except String (String × String)
  polls : List (Except String PollResult)

/-- The poll loop of lines 200-216, after the job was submitted: while the
status is neither `completed` nor `error`, take the next poll response.  On
`completed` the source reads `result.text || ''` — when the initial status
was already `completed`, `result` is still `null` and that read throws.
On `error` it logs and returns `''`. -/
def pollLoop (status : String) (result? : Option PollResult) :
    List (Except String PollResult) → Option (Except String String)
  | [] =>
    if status = "completed" then
      match result? with
      | none => some (Except.error "TypeError: null has no field text")
      | some r => some (Except.ok (r.text.getD ""))
    else if status = "error" then some (Except.ok "")
    else none
  | pr :: rest =>
    if status = "completed" then
      match result? with
      | none => some (Except.error "TypeError: null has no field text")
      | some r => some (Except.ok (r.text.getD ""))
    else if status = "error" then some (Except.ok "")
    else
      match pr with
      | Except.error e => some (Except.error e)
      | Except.ok r => pollLoop r.status (some r) rest

/-- The body of `transcribeWithAssemblyAI` inside its `try` (lines
175-216): upload, submit, poll.  (`blobToTempFile`/`removeFile` move bytes
around and do not affect the returned text; a failure there is one more
way for `upload` to be `Except.error`.) -/
def transcribeBody (o : TranscribeOracle) : Option (Except String String) :=
  match o.upload with
  | Except.error e => some (Except.error e)
  | Except.ok _uploadUrl =>
    match o.submit with
    | Except.error e => some (Except.error e)
    | Except.ok job => pollLoop job.2 none o.polls

/-- `transcribeWithAssemblyAI` (lines 174-223): any exception is caught and
converted to the empty string (lines 217-219); a service-reported terminal
error also yields the empty string.  `none` means the poll loop never
terminated. -/
def transcribeWithAssemblyAI (o : TranscribeOracle) : Option String :=
  match transcribeBody o with
  | none => none
  | some (Except.ok s) => some s
  | some (Except.error _) => some ""

/-- A transcription service run whose job reaches the terminal `error`
status on the first poll: upload and submission succeed, the job starts
out `queued`, and the single poll reports `status = "error"` with the
service's error message. -/
def erroringOracle (uploadUrl jobId errMsg : String) : TranscribeOracle :=
  { upload := Except.ok uploadUrl
    submit := Except.ok (jobId, "queued")
    polls := [Except.ok ⟨"error", none, some errMsg⟩] }

/-! ### `stopRecorder` (lines 393-423) -/

/-- Mark a participant's record `isFinished := true` (line 401). -/
def markFinished (st : Store) (id : String) : Store :=
  { st with participantData := st.participantData.map (fun q =>
      if q.id == id then { q with isFinished := true } else q) }

/-- `stopRecorder(id, stopTime)` (lines 393-423).  Result: `none` when the
transcription poll loop never terminates; `some none` is a JS `null`
return (unknown participant or zero fragments, line 395-398); `some (some
e)` is a returned transcript entry.  The source's own `catch` (lines
419-422) is unreachable here because `transcribeWithAssemblyAI` already
catches every exception. -/
def stopRecorder (id : String) (_stopTime : Int) (o : TranscribeOracle) (st : Store) :
    Store × Option (Option Entry) :=
  match st.participantData.find? (fun q => q.id == id) with
  | none => (st, some none)
  | some p =>
    if p.chunks.length = 0 then (st, some none)
    else
      let st' := markFinished st id
      if blobsSize p.chunks = 0 then
        (st', some (some ⟨p.id, some (p.name.getD p.id), ""⟩))
      else
        match transcribeWithAssemblyAI o with
        | none => (st', none)
        | some text => (st', some (some ⟨p.id, some (p.name.getD p.id), text⟩))

/-! ### Summarization orchestrator (`summarizeWithHuggingFace`, lines 228-347)

The HuggingFace endpoint is an oracle: a list of attempts, each mapping
the request body actually sent (`transcript.slice(0, 4000)`, line 243) to
an HTTP response.  The recursive retry on 503 / model-loading (lines
256-260, 303-307) consumes the next attempt; exhausting the list models a
call that never returns (`none`).  The fixed 15-second backoff between
attempts is real time and is not part of the value-level model. -/

/-- The `{summary, keyPoints}` result shape of `summarizeWithHuggingFace`. -/
structure SummaryResult where
  summary : String
  keyPoints : List String
deriving DecidableEq, Repr

/-- JSON values as produced by `JSON.parse` (numbers as integers; no
claim exercises fractional numbers). -/
inductive Json where
  | null : Json
  | bool : Bool → Json
  | num : Int → Json
  | str : String → Json
  | arr : List Json → Json
  | obj : List (String × Json) → Json

/-- Field lookup on a parsed JSON object. -/
def lookupField : List (String × Json) → String → Option Json
  | [], _ => none
  | (k, v) :: fs, key => if k == key then some v else lookupField fs key

/-- JS property access `data?.k`: `undefined` (here `none`) unless `data`
is an object with the field. -/
def jsField : Json → String → Option Json
  | Json.obj fs, k => lookupField fs k
  | _, _ => none

/-- JS truthiness of a parsed JSON value. -/
def truthy : Json → Bool
  | Json.null => false
  | Json.bool b => b
  | Json.num n => n != 0
  | Json.str s => s != ""
  | Json.arr _ => true
  | Json.obj _ => true

/-- JS `a || b` on optionally-present JSON values. -/
def jsOrJ (a : Option Json) (b : Json) : Json :=
  match a with
  | some v => if truthy v then v else b
  | none => b

/-- One HTTP response from the summarization endpoint.  `bodyJson` is the
result of `JSON.parse(bodyText)` (`none` = parse failure); the model
carries it directly since `JSON.parse` is a JS runtime primitive. -/
structure HfResponse where
  status : Nat
  statusText : String
  contentType : Option String
  bodyText : String
  bodyJson : Option Json

/-- `fetch` `Response.ok`: status in the 200-299 range. -/
def respOk (status : Nat) : Bool := 200 ≤ status && status ≤ 299

/-- The request body sent to the summarization endpoint: `inputs:
transcript.slice(0, 4000)` (line 243). -/
def hfInputs (transcript : String) : String := jsTake transcript 4000

/-- Key points derived from the summary text (lines 330-334): split on
`[.?!]`, trim, keep fragments with `length > 4`, take the first 5. -/
def hfKeyPoints (text : String) : List String :=
  ((((jsSplitOn sentencePunct text).map jsTrim).filter (fun t => 4 < t.length)).take 5)

/-- The non-JSON content-type handling of lines 269-286: an HTML error
page gets a fixed message, anything else the generic format message. -/
def nonJsonResult (bodyText : String) : SummaryResult :=
  if jsStartsWith (jsTrim bodyText) "<!DOCTYPE" || jsStartsWith (jsTrim bodyText) "<!doctype" then
    { summary := "HuggingFace API returned an error page. Please check your API key and model availability."
      keyPoints := [] }
  else
    { summary := "HuggingFace API returned unexpected response format."
      keyPoints := [] }

/-- The summary-text extraction of lines 315-322: an array's first element
under `summary_text` or `generated_text` (when truthy), a bare string, or
an object's `summary_text` / `generated_text`, defaulting to `''`. -/
def extractedText (data : Json) : Json :=
  match data with
  | Json.arr xs =>
    let s0 := xs.head?.bind (fun x => jsField x "summary_text")
    let g0 := xs.head?.bind (fun x => jsField x "generated_text")
    if (s0.map truthy).getD false then s0.getD Json.null
    else if (g0.map truthy).getD false then g0.getD Json.null
    else Json.str ""
  | Json.str s => Json.str s
  | _ => jsOrJ (jsField data "summary_text") (jsOrJ (jsField data "generated_text") (Json.str ""))

/-- Lines 324-338: a falsy extracted text yields the fixed "no summary"
result; a truthy non-string would make `text.split` throw, which the outer
catch (lines 339-346) converts to `{summary: '', keyPoints: []}`; a
non-empty string yields the summary and its derived key points. -/
def finishExtraction (data : Json) : SummaryResult :=
  match extractedText data with
  | Json.str s =>
    if s = "" then
      { summary := "No summary returned from HuggingFace API.", keyPoints := ["No summary available"] }
    else { summary := s, keyPoints := hfKeyPoints s }
  | t =>
    if truthy t then { summary := "", keyPoints := [] }
    else { summary := "No summary returned from HuggingFace API.", keyPoints := ["No summary available"] }

/-- `summarizeWithHuggingFace` (lines 228-347).  Each attempt is applied
to the request body actually sent (`hfInputs transcript`).  The service's
`error` field is a string when present (a non-string non-null value would
make `includes` throw, caught by the outer handler into `{summary: '',
keyPoints: []}`). -/
def summarizeWithHuggingFace :
    List (String → HfResponse) → String → Option SummaryResult
  | [], _ => none
  | f :: rest, transcript =>
    let resp := f (hfInputs transcript)
    if respOk resp.status = false then
      if resp.status = 503 then summarizeWithHuggingFace rest transcript
      else some { summary := "HuggingFace API error (" ++ toString resp.status ++ "): " ++ resp.statusText
                  keyPoints := [] }
    else
      match resp.contentType with
      | none => some (nonJsonResult resp.bodyText)
      | some ct =>
        if jsIncludes ct "application/json" = false then some (nonJsonResult resp.bodyText)
        else
          match resp.bodyJson with
          | none => some { summary := "Failed to parse HuggingFace API response.", keyPoints := [] }
          | some data =>
            match jsField data "error" with
            | some (Json.str e) =>
              if jsIncludes e "loading" || jsIncludes e "is currently loading" then
                summarizeWithHuggingFace rest transcript
              else if e = "" then some (finishExtraction data)
              else some { summary := "Hugging Face API error: " ++ e, keyPoints := [] }
            | some Json.null => some (finishExtraction data)
            | some _ => some { summary := "", keyPoints := [] }
            | none => some (finishExtraction data)

/-- A 503 "model loading" response, used by the retry behavior. -/
def hf503 : HfResponse :=
  { status := 503, statusText := "Service Unavailable", contentType := none,
    bodyText := "", bodyJson := none }

/-- A successful 200 JSON response whose body is
`[ { "summary_text": s } ]`.  (`bodyText` is only consulted on non-JSON
content types and is irrelevant here.) -/
def hfSuccessResponse (s : String) : HfResponse :=
  { status := 200, statusText := "OK", contentType := some "application/json",
    bodyText := "", bodyJson := some (Json.arr [Json.obj [("summary_text", Json.str s)]]) }

/-! ### Persistence sink (`saveMeetingSummary`, lines 641-764) -/

/-- The row inserted into `meeting_summaries` (lines 697-709). -/
structure InsertRecord where
  room_id : String
  org_id : String
  created_by : String
  summary_text : String
  key_points : List String
  participants : List String
  participant_names : List (String × String)
  duration_ms : Int
  start_time : Int
  end_time : Int
  transcriptions : List Entry

/-- Oracle for the persistence boundary: the auth context (`orgId`,
`userId`), the `rooms` lookup for an `org_id` (which may throw), the two
environment fallbacks, and the insert itself.  `insert` returns the saved
row ids, an empty list when the insert returned no data, or
`Except.error` for a supabase error / thrown exception. -/
structure PersistOracle where
  authOrgId : Option String
  authUserId : Option String
  roomOrgId : Except String (Option String)
  defaultOrgId : Option String
  systemUserId : Option String
  insert : InsertRecord → Except String (List Nat)

/-- `saveMeetingSummary` (lines 641-764).  The whole body is inside a
`try` whose `catch` returns `null` (lines 756-763), so this function never
throws: a supabase error is re-thrown at line 729 and caught, an empty
insert result throws at line 734 and is caught, and the verification
query (lines 743-753) only logs.  `orgId` resolution follows the JS
truthiness chain of lines 657-691 and `created_by` the `??` chain of line
693. -/
def saveMeetingSummary (o : PersistOracle) (summary : MeetingSummary) (roomId : String) :
    Option (List Nat) :=
  let orgId1 : Option String :=
    if jsFalsyStr o.authOrgId then
      match o.roomOrgId with
      | Except.error _ => o.authOrgId
      | Except.ok r => if jsFalsyStr r then o.authOrgId else r
    else o.authOrgId
  let orgId2 : String :=
    if jsFalsyStr orgId1 then o.defaultOrgId.getD "org_default" else orgId1.getD ""
  let createdBy : String := o.authUserId.getD (o.systemUserId.getD "system")
  let insertData : InsertRecord :=
    { room_id := roomId
      org_id := orgId2
      created_by := createdBy
      summary_text := summary.summary
      key_points := summary.keyPoints
      participants := summary.participants
      participant_names := summary.participantNames
      duration_ms := summary.duration
      start_time := summary.startTime
      end_time := summary.endTime
      transcriptions := summary.transcriptions }
  match o.insert insertData with
  | Except.error _ => none
  | Except.ok [] => none
  | Except.ok rows => some rows

/-! ### Session controller (`stopMeeting`, lines 426-638) -/

/-- The collaborators consumed during one `stopMeeting` call.
`memberNames` is the participant-id → display-name map delivered by the
name resolution of lines 464-488 (`getOrganizationMemberNames` catches
every failure and returns a map, possibly empty, so an arbitrary map
covers every behavior of that collaborator); `transcriber` gives the
AssemblyAI oracle for each participant's job; `hf` the summarization
attempts; `persist` the persistence boundary. -/
structure SessionOracles where
  memberNames : String → Option String
  transcriber : String → TranscribeOracle
  hf : List (String → HfResponse)
  persist : PersistOracle

/-- Name resolution of lines 494 and 537:
`memberNames[p.id] || p.name || p.id` (JS `||`, so empty strings fall
through). -/
def resolvedNameOf (mn : String → Option String) (p : ParticipantRecord) : String :=
  jsOr (mn p.id) (jsOr p.name p.id)

/-- One line of the combined transcript (line 530):
`` `${t.name ?? t.id}: ${t.text}` ``. -/
def lineOf (t : Entry) : String := (t.name.getD t.id) ++ ": " ++ t.text

/-- `Array.prototype.join('\n')`. -/
def joinLines : List String → String
  | [] => ""
  | [l] => l
  | l :: l' :: ls => l ++ "\n" ++ joinLines (l' :: ls)

/-- The combined transcript (lines 529-532): all entries rendered as
lines, joined with newlines, trimmed. -/
def fullTranscriptOf (ts : List Entry) : String :=
  jsTrim (joinLines (ts.map lineOf))

/-- The per-participant transcription loop of lines 490-526, in store
order: zero chunks or an empty combined blob yield an empty-text entry
with no transcription call; otherwise the participant's audio is
transcribed (a never-terminating poll loop makes the whole loop hang:
`none`).  The loop's own `catch` (lines 522-525) is unreachable here
because `transcribeWithAssemblyAI` catches every exception. -/
def buildTranscriptions (mn : String → Option String) (tr : String → TranscribeOracle) :
    List ParticipantRecord → Option (List Entry)
  | [] => some []
  | p :: ps =>
    let name := resolvedNameOf mn p
    let text? : Option String :=
      if p.chunks.length = 0 then some ""
      else if blobsSize p.chunks = 0 then some ""
      else transcribeWithAssemblyAI (tr p.id)
    match text? with
    | none => none
    | some text =>
      match buildTranscriptions mn tr ps with
      | none => none
      | some es => some (⟨p.id, some name, text⟩ :: es)

/-- `Math.min(...participants.map(p => p.offset))` (line 437), with a
default for the (unreached) empty case. -/
def minOffset : List ParticipantRecord → Int → Int
  | [], dflt => dflt
  | p :: ps, _ => ps.foldl (fun m q => min m q.offset) p.offset

/-- The session-clock derivation of lines 432-445: when the stored clock
is JS-falsy, use the earliest participant offset, or the current time when
there are no participants; otherwise keep the stored clock. -/
def sessionClockOf (st : Store) (now : Int) : Int :=
  if jsFalsyTime st.meetingStartTime then
    if 0 < st.participantData.length then minOffset st.participantData now else now
  else st.meetingStartTime.getD 0

/-- The error sniff of line 574: the summary contains `'error'`,
`'Error'`, or `'API error'` as a substring. -/
def isErrorFlag (s : String) : Bool :=
  jsIncludes s "error" || jsIncludes s "Error" || jsIncludes s "API error"

/-- The fallback summary of lines 583/594:
`` `Meeting discussion: ${fullTranscript.substring(0, 500)}...` `` with
the ellipsis only when the transcript exceeds 500 characters. -/
def fallbackSummary (ft : String) : String :=
  "Meeting discussion: " ++ jsTake ft 500 ++ (if 500 < ft.length then "..." else "")

/-- The fallback key points of lines 584-588/595-599: split the combined
transcript on `[.?!]`, trim, keep fragments with `length > 10`, take the
first 5. -/
def fallbackKeyPoints (ft : String) : List String :=
  ((((jsSplitOn sentencePunct ft).map jsTrim).filter (fun t => 10 < t.length)).take 5)

/-- The summary/key-point choice of lines 568-601: keep the orchestrator's
result only when the summary is truthy, not flagged as an error, and the
key-point list is non-empty; otherwise synthesize the fallback from the
combined transcript. -/
def chooseSummary (sr : SummaryResult) (ft : String) : String × List String :=
  if sr.summary ≠ "" ∧ isErrorFlag sr.summary = false ∧ 0 < sr.keyPoints.length then
    (sr.summary, sr.keyPoints)
  else (fallbackSummary ft, fallbackKeyPoints ft)

/-- Assembly of the `MeetingSummary` aggregate (lines 547-556 and
603-612): participant ids, resolved participant names (lines 535-538),
the transcript entries, and the session times. -/
def aggregateOf (ps : List ParticipantRecord) (mn : String → Option String)
    (es : List Entry) (s : String) (kp : List String) (mst now : Int) : MeetingSummary :=
  { summary := s
    keyPoints := kp
    participants := ps.map (fun p => p.id)
    participantNames := ps.map (fun p => (p.id, resolvedNameOf mn p))
    transcriptions := es
    duration := now - mst
    startTime := mst
    endTime := now }

/-- `stopMeeting(roomId)` (lines 426-638).  Returns the updated store
(the lazily derived session clock is written back) and the aggregate;
`none` models a call that never returns because a transcription poll loop
or the summarization retry loop never terminates.  `saveMeetingSummary`
is invoked for its side effect on both return paths (lines 559 and
617-635) and its result is discarded — it never throws, and the AI path
additionally wraps it in `try`/`catch`. -/
def stopMeeting (roomId : String) (o : SessionOracles) (now : Int) (st : Store) :
    Store × Option MeetingSummary :=
  let mst := sessionClockOf st now
  let st' : Store := { st with meetingStartTime := some mst }
  match buildTranscriptions o.memberNames o.transcriber st.participantData with
  | none => (st', none)
  | some es =>
    let ft := fullTranscriptOf es
    if ft.length = 0 then
      let result := aggregateOf st.participantData o.memberNames es
        "No speech detected during this meeting."
        ["No audio captured", "Meeting contained silence or technical issues"] mst now
      let _saved := saveMeetingSummary o.persist result roomId
      (st', some result)
    else
      match summarizeWithHuggingFace o.hf ft with
      | none => (st', none)
      | some sr =>
        let choice := chooseSummary sr ft
        let result := aggregateOf st.participantData o.memberNames es choice.1 choice.2 mst now
        let _saved := saveMeetingSummary o.persist result roomId
        (st', some result)

/-! ### Call sequences against the chunk store -/

/-- One ingestion-phase call: `setNewParticipantServerAction` or
`setParticipantBlobChunk`. -/
inductive Op where
  | register (p : ParticipantRecord)
  | ingest (id : String) (b : Blob) (ts : Int)

/-- Apply one call to the store. -/
def applyOp (st : Store) : Op → Store
  | Op.register p => setNewParticipantServerAction p st
  | Op.ingest id b ts => setParticipantBlobChunk id b ts st

/-- Apply a sequence of calls in order. -/
def applyOps (st : Store) (ops : List Op) : Store := ops.foldl applyOp st

/-- The identifiers that received at least one chunk in the sequence. -/
def ingestedIds : List Op → List String
  | [] => []
  | Op.register _ :: ops => ingestedIds ops
  | Op.ingest id _ _ :: ops => id :: ingestedIds ops

/-! ### Definitions taken from the spec's words (for refinement claims) -/

/-- Modelled from the claim's words (C3): the combined transcript as the
join of the *non-empty* entries only, each rendered as a name-colon-text
line, trimmed.  To be compared with `fullTranscriptOf`, which is
translated from the source. -/
def specTranscriptNonEmptyOnly (ts : List Entry) : String :=
  jsTrim (joinLines ((ts.filter (fun t => t.text != "")).map lineOf))

/-- Modelled from the claim's words (C8): split the summary text on `.`,
`?`, `!`, trim whitespace from each fragment, discard fragments shorter
than 5 characters, keep at most the first 5.  To be compared with
`hfKeyPoints`, which is translated from the source. -/
def specKeyPoints (text : String) : List String :=
  ((((jsSplitOn sentencePunct text).map jsTrim).filter (fun t => 5 ≤ t.length)).take 5)

/-- The id-consistency invariant of the aggregate: the `participants`
list, the `participantNames` keys and the ids of `transcriptions` agree. -/
def consistentIdsB (r : MeetingSummary) : Bool :=
  decide (r.participants = r.transcriptions.map (fun e => e.id)) &&
  decide (r.participantNames.map Prod.fst = r.participants)

/-- Well-formedness of the aggregate: consistent id lists and coherent
times. -/
def wellFormedB (r : MeetingSummary) : Bool :=
  consistentIdsB r && decide (r.duration = r.endTime - r.startTime)

/-! ### Concrete fixtures used by witnesses and counterexamples -/

/-- A persistence oracle whose insert succeeds with one row. -/
def basePersist : PersistOracle :=
  { authOrgId := some "org", authUserId := some "user", roomOrgId := Except.ok none,
    defaultOrgId := none, systemUserId := none, insert := fun _ => Except.ok [1] }

/-- Session oracles with no resolvable member names, an immediately
erroring transcription service, the given summarization attempts, and a
succeeding persistence sink. -/
def baseOracles (hf : List (String → HfResponse)) : SessionOracles :=
  { memberNames := fun _ => none
    transcriber := fun _ => erroringOracle "upload-url" "job-1" "bad audio"
    hf := hf
    persist := basePersist }

/-- A registered participant that never produced a chunk. -/
def aliceRec : ParticipantRecord := ⟨"a", some "Alice", 1, [], false⟩

/-- A store holding exactly the chunkless participant `aliceRec`. -/
def aliceStore : Store := ⟨none, [aliceRec]⟩

/-! ### Helper lemmas -/

theorem isPrefixOf_self_append (n rest : List Char) : n.isPrefixOf (n ++ rest) = true := by
  induction n with
  | nil => simp
  | cons a as ih => simp [ih]

theorem listIncludesSeg_self_append (n rest : List Char) :
    listIncludesSeg n (n ++ rest) = true := by
  cases n with
  | nil => cases rest <;> simp [listIncludesSeg]
  | cons a as => simp [listIncludesSeg, isPrefixOf_self_append]

theorem listIncludesSeg_append_left (n l1 l2 : List Char) (h : listIncludesSeg n l2 = true) :
    listIncludesSeg n (l1 ++ l2) = true := by
  induction l1 with
  | nil => exact h
  | cons c cs ih => simp [listIncludesSeg, ih]

theorem hfKeyPoints_eq_specKeyPoints (s : String) : hfKeyPoints s = specKeyPoints s := rfl

/-- The per-participant loop yields exactly one entry per participant
record, carrying that record's id, in store order. -/
theorem buildT_ids {mn : String → Option String} {tr : String → TranscribeOracle} :
    ∀ {ps : List ParticipantRecord} {es : List Entry},
      buildTranscriptions mn tr ps = some es →
      es.map (fun e => e.id) = ps.map (fun p => p.id) := by
  intro ps
  induction ps with
  | nil =>
    intro es h
    simp only [buildTranscriptions, Option.some.injEq] at h
    subst h; rfl
  | cons p ps ih =>
    intro es h
    simp only [buildTranscriptions] at h
    cases htext : (if p.chunks.length = 0 then some ""
        else if blobsSize p.chunks = 0 then some "" else transcribeWithAssemblyAI (tr p.id)) with
    | none => rw [htext] at h; exact absurd h (by simp)
    | some text =>
      rw [htext] at h
      cases hrest : buildTranscriptions mn tr ps with
      | none => rw [hrest] at h; exact absurd h (by simp)
      | some es' =>
        rw [hrest] at h
        simp only [Option.some.injEq] at h
        subst h
        simp [ih hrest]

/-- In a list of entries with pairwise-distinct ids, an id that occurs,
occurs in exactly one entry. -/
theorem countP_id_eq_one :
    ∀ (es : List Entry) (id : String),
      (es.map (fun e => e.id)).Nodup → id ∈ es.map (fun e => e.id) →
      es.countP (fun e => e.id == id) = 1 := by
  intro es id
  induction es with
  | nil => simp
  | cons e es ih =>
    intro hnd hmem
    simp only [List.map_cons, List.nodup_cons] at hnd
    simp only [List.map_cons, List.mem_cons] at hmem
    rcases hmem with h | h
    · subst h
      rw [List.countP_cons]
      have hz : es.countP (fun x => x.id == e.id) = 0 := by
        rw [List.countP_eq_zero]
        intro a ha hb
        have hb' : a.id = e.id := by simpa using hb
        refine hnd.1 ?_
        rw [← hb']
        exact List.mem_map_of_mem (fun x => x.id) ha
      simp [hz]
    · rw [List.countP_cons]
      have hpa : (e.id == id) = false := by
        have hne : ¬ e.id = id := fun hh => hnd.1 (hh ▸ h)
        simp [hne]
      simp [hpa, ih hnd.2 h]

/-- Updating records in place with an id-preserving function leaves the
key list unchanged. -/
theorem map_id_of_update (l : List ParticipantRecord) (g : ParticipantRecord → ParticipantRecord)
    (hg : ∀ q, (g q).id = q.id) :
    (l.map g).map (fun p => p.id) = l.map (fun p => p.id) := by
  rw [List.map_map]
  exact List.map_congr_left (fun a _ => hg a)

/-- Keys after `upsert`: unchanged when the id exists, appended otherwise. -/
theorem keys_upsert (l : List ParticipantRecord) (p : ParticipantRecord) :
    (upsert l p).map (fun q => q.id) =
      if l.any (fun q => q.id == p.id) then l.map (fun q => q.id)
      else l.map (fun q => q.id) ++ [p.id] := by
  unfold upsert
  split
  · apply map_id_of_update
    intro q
    split
    · next hq => exact (beq_iff_eq.mp hq).symm
    · rfl
  · simp

/-- Keys after `setParticipantBlobChunk`: unchanged when the id exists,
appended otherwise. -/
theorem keys_ingest (st : Store) (id : String) (b : Blob) (ts : Int) :
    keysOf (setParticipantBlobChunk id b ts st) =
      if st.participantData.any (fun q => q.id == id) then keysOf st else keysOf st ++ [id] := by
  unfold setParticipantBlobChunk keysOf
  simp only
  rw [map_id_of_update]
  · split <;> simp
  · intro q
    split
    · rfl
    · rfl

/-- An id absent from every record makes the `any` probe false, and
conversely. -/
theorem any_id_eq_false {l : List ParticipantRecord} {id : String}
    (h : l.any (fun q => q.id == id) = false) : id ∉ l.map (fun q => q.id) := by
  intro hmem
  rcases List.mem_map.mp hmem with ⟨q, hq, hid⟩
  have hid' : q.id = id := hid
  have h2 : l.any (fun q => q.id == id) = true :=
    List.any_eq_true.mpr ⟨q, hq, by simp [hid']⟩
  rw [h] at h2
  exact Bool.false_ne_true h2

/-- Applying one ingestion-phase call preserves distinctness of the store
keys. -/
theorem keysOf_applyOp_nodup (st : Store) (op : Op) (h : (keysOf st).Nodup) :
    (keysOf (applyOp st op)).Nodup := by
  cases op with
  | register p =>
    show ((upsert st.participantData _).map (fun q => q.id)).Nodup
    rw [keys_upsert]
    split
    · exact h
    · next hany =>
      have := any_id_eq_false (Bool.eq_false_iff.mpr hany)
      simp_all [List.nodup_append, keysOf]
  | ingest id b ts =>
    show (keysOf (setParticipantBlobChunk id b ts st)).Nodup
    rw [keys_ingest]
    split
    · exact h
    · next hany =>
      have := any_id_eq_false (Bool.eq_false_iff.mpr hany)
      simp_all [List.nodup_append, keysOf]

/-- Applying one ingestion-phase call preserves key membership. -/
theorem mem_keysOf_applyOp (st : Store) (op : Op) (id : String) (h : id ∈ keysOf st) :
    id ∈ keysOf (applyOp st op) := by
  cases op with
  | register p =>
    show id ∈ (upsert st.participantData _).map (fun q => q.id)
    rw [keys_upsert]
    split
    · exact h
    · exact List.mem_append_left _ h
  | ingest pid b ts =>
    show id ∈ keysOf (setParticipantBlobChunk pid b ts st)
    rw [keys_ingest]
    split
    · exact h
    · exact List.mem_append_left _ h

/-- After ingesting a chunk for `id`, `id` is a store key. -/
theorem ingest_mem_keysOf (st : Store) (id : String) (b : Blob) (ts : Int) :
    id ∈ keysOf (applyOp st (Op.ingest id b ts)) := by
  show id ∈ keysOf (setParticipantBlobChunk id b ts st)
  rw [keys_ingest]
  split
  · next hany =>
    rcases List.any_eq_true.mp hany with ⟨q, hq, hid⟩
    simp only [beq_iff_eq] at hid
    exact hid ▸ List.mem_map_of_mem (fun q => q.id) hq
  · exact List.mem_append_right _ (List.mem_singleton.mpr rfl)

/-- Key distinctness is preserved by whole call sequences. -/
theorem keysOf_applyOps_nodup :
    ∀ (ops : List Op) (st : Store), (keysOf st).Nodup → (keysOf (applyOps st ops)).Nodup := by
  intro ops
  induction ops with
  | nil => intro st h; exact h
  | cons op ops ih => intro st h; exact ih _ (keysOf_applyOp_nodup _ _ h)

/-- Key membership is preserved by whole call sequences. -/
theorem mem_keysOf_applyOps :
    ∀ (ops : List Op) (st : Store) (id : String),
      id ∈ keysOf st → id ∈ keysOf (applyOps st ops) := by
  intro ops
  induction ops with
  | nil => intro st id h; exact h
  | cons op ops ih => intro st id h; exact ih _ _ (mem_keysOf_applyOp _ _ _ h)

/-- Every id that received a chunk during the sequence is a key of the
final store. -/
theorem ingested_mem_keysOf :
    ∀ (ops : List Op) (st : Store) (id : String),
      id ∈ ingestedIds ops → id ∈ keysOf (applyOps st ops) := by
  intro ops
  induction ops with
  | nil => intro st id h; cases h
  | cons op ops ih =>
    intro st id h
    cases op with
    | register p => exact ih _ _ h
    | ingest pid b ts =>
      simp only [ingestedIds, List.mem_cons] at h
      rcases h with h | h
      · subst h
        exact mem_keysOf_applyOps ops _ _ (ingest_mem_keysOf st _ b ts)
      · exact ih _ _ h

/-- An element that fails the predicate survives `dropWhile`. -/
theorem mem_dropWhile_of_not (p : Char → Bool) :
    ∀ (l : List Char) (c : Char), c ∈ l → p c = false → c ∈ l.dropWhile p := by
  intro l
  induction l with
  | nil => intro c h; cases h
  | cons x xs ih =>
    intro c h hp
    rcases List.mem_cons.mp h with h | h
    · subst h
      rw [List.dropWhile_cons, if_neg (by simp [hp])]
      exact List.mem_cons_self _ _
    · rw [List.dropWhile_cons]
      split
      · exact ih c h hp
      · exact List.mem_cons_of_mem _ h

/-- A string containing a non-whitespace character does not trim to the
empty string. -/
theorem jsTrim_ne_empty (s : String) (c : Char) (hc : c ∈ s.data)
    (hw : jsWhitespaceChar c = false) : jsTrim s ≠ "" := by
  intro h
  have h1 : c ∈ s.data.dropWhile jsWhitespaceChar := mem_dropWhile_of_not _ _ _ hc hw
  have h2 : c ∈ (s.data.dropWhile jsWhitespaceChar).reverse := List.mem_reverse.mpr h1
  have h3 : c ∈ (s.data.dropWhile jsWhitespaceChar).reverse.dropWhile jsWhitespaceChar :=
    mem_dropWhile_of_not _ _ _ h2 hw
  have h4 : ((s.data.dropWhile jsWhitespaceChar).reverse.dropWhile jsWhitespaceChar).reverse ≠ [] := by
    simp only [ne_eq, List.reverse_eq_nil_iff]
    exact List.ne_nil_of_mem h3
  unfold jsTrim at h
  exact h4 (String.ext_iff.mp h)

/-- Every transcript line contains the colon of its name-text separator. -/
theorem colon_mem_lineOf (e : Entry) : ':' ∈ (lineOf e).data := by
  unfold lineOf
  rw [String.data_append, String.data_append]
  exact List.mem_append_left _ (List.mem_append_right _ (by simp [String.data]))

/-- Characters of the first line occur in the joined transcript. -/
theorem mem_joinLines_head (l : String) (ls : List String) (c : Char) (hc : c ∈ l.data) :
    c ∈ (joinLines (l :: ls)).data := by
  cases ls with
  | nil => exact hc
  | cons l' ls =>
    show c ∈ (l ++ "\n" ++ joinLines (l' :: ls)).data
    rw [String.data_append, String.data_append]
    exact List.mem_append_left _ (List.mem_append_left _ hc)

/-- A string is empty exactly when its length is zero. -/
theorem length_zero_iff (s : String) : s.length = 0 ↔ s = "" := by
  rw [show s.length = s.data.length from rfl, List.length_eq_zero, String.ext_iff]

/-! ### Claim theorems -/

/-- Claim C1 (counterexample): for a registered participant with zero
fragments, `stopRecorder` returns JS `null` (`some none`), not a
Transcript Entry with empty text as the claim states — here for
participant `"a"`, registered and chunkless, against an arbitrary concrete
transcription oracle. -/
theorem C1_counterexample :
    (stopRecorder "a" 10 (erroringOracle "upload-url" "job-1" "bad audio")
        (setNewParticipantServerAction aliceRec (Init 0 emptyStore))).2 = some none := by
  decide

/-- Claim C4 (code bug): `Init 0` establishes the session clock at `0`,
yet the next `ingestChunk` call at timestamp `5` overwrites it to `5`,
because the source guards the lazy initialization with the JS-falsy test
`!meetingStartTime`, which conflates the legitimate start time `0` with
"unset".  The stated invariant — once established, the clock survives
until the next init — therefore fails at start time `0`. -/
theorem C4_code_bug :
    (setParticipantBlobChunk "alice" ⟨100⟩ 5 (Init 0 emptyStore)).meetingStartTime = some 5 ∧
    decide ((setParticipantBlobChunk "alice" ⟨100⟩ 5 (Init 0 emptyStore)).meetingStartTime
      = some 0) = false := by
  decide

/-- Claim C7: against a summarization service that answers HTTP 503 first
and then a successful 200 JSON summary, `summarizeWithHuggingFace`
retries and returns the successful result — no error result reaches the
caller.  (The fixed 15-second backoff between the two attempts is real
time and outside the value-level model.)  Holds for every transcript and
any further queued responses. -/
theorem C7_thm (t : String) (rest : List (String → HfResponse)) :
    summarizeWithHuggingFace
        ((fun _ => hf503) :: (fun _ => hfSuccessResponse "The project is on track for launch.") :: rest) t
      = some ⟨"The project is on track for launch.", ["The project is on track for launch"]⟩ := by
  rfl

/-- Claim C8: a successful summarization response with summary text `s`
yields exactly the key points prescribed by the spec — split on `.?!`,
trim, discard fragments shorter than 5 characters, keep at most the first
5 (`specKeyPoints`, written from the claim's words) — and the body sent
to the service, `hfInputs`, is the transcript truncated to 4000
characters, a no-op on shorter transcripts. -/
theorem C8_thm (t s : String) (rest : List (String → HfResponse)) :
    (s ≠ "" →
      summarizeWithHuggingFace ((fun _ => hfSuccessResponse s) :: rest) t
        = some ⟨s, specKeyPoints s⟩) ∧
    (t.length ≤ 4000 → hfInputs t = t) := by
  constructor
  · intro hs
    have hne : (s != "") = true := by simp [hs]
    simp only [summarizeWithHuggingFace, hfSuccessResponse, respOk]
    norm_num
    simp only [jsField]
    show some (finishExtraction (Json.arr [Json.obj [("summary_text", Json.str s)]]))
      = some (SummaryResult.mk s (specKeyPoints s))
    simp [finishExtraction, extractedText, jsField, lookupField, truthy, hne, hs,
      hfKeyPoints_eq_specKeyPoints]
  · intro ht
    unfold hfInputs jsTake
    rw [List.take_of_length_le ht]

/-- Claim C8 (witness): the claim's own example — the transcript
`"Alice: Hello world. We shipped the feature."` is below 4000 characters
so truncation is the identity, and the mocked summary
`"Hello world. We shipped the feature."` yields the two expected key
points. -/
theorem C8_witness :
    summarizeWithHuggingFace
        [fun _ => hfSuccessResponse "Hello world. We shipped the feature."]
        "Alice: Hello world. We shipped the feature."
      = some ⟨"Hello world. We shipped the feature.", ["Hello world", "We shipped the feature"]⟩ ∧
    hfInputs "Alice: Hello world. We shipped the feature."
      = "Alice: Hello world. We shipped the feature." := by
  have h := C8_thm "Alice: Hello world. We shipped the feature."
    "Hello world. We shipped the feature." []
  exact ⟨(h.1 (by decide)).trans (by decide), h.2 (by decide)⟩

/-- Claim C3 (counterexample): the combined transcript is *not* the join
of the non-empty entries only.  For the single empty-text entry produced
by a chunkless participant named Alice, the code's transcript
(`fullTranscriptOf`, lines 529-532) is `"Alice:"`, while the claim's
non-empty-only join (`specTranscriptNonEmptyOnly`) is `""`. -/
theorem C3_counterexample :
    fullTranscriptOf [⟨"a", some "Alice", ""⟩] = "Alice:" ∧
    specTranscriptNonEmptyOnly [⟨"a", some "Alice", ""⟩] = "" ∧
    decide (("Alice:" : String) = "") = false := by
  decide

/-- Claim C1 (amended): `stopRecorder` returns JS `null` — not an entry —
when the participant is unknown or has zero fragments, with no
transcription call (the result is the same for every oracle); otherwise it
never throws to its caller: an empty combined blob yields an empty-text
entry without a transcription call, and a transcription run that ends in
a thrown service error still yields an entry with empty text. -/
theorem C1_amended (st : Store) (id : String) (t : Int) (o : TranscribeOracle) :
    (st.participantData.find? (fun q => q.id == id) = none →
      stopRecorder id t o st = (st, some none)) ∧
    (∀ p, st.participantData.find? (fun q => q.id == id) = some p →
      p.chunks.length = 0 → stopRecorder id t o st = (st, some none)) ∧
    (∀ p, st.participantData.find? (fun q => q.id == id) = some p →
      p.chunks.length ≠ 0 → blobsSize p.chunks = 0 →
      (stopRecorder id t o st).2 = some (some ⟨p.id, some (p.name.getD p.id), ""⟩)) ∧
    (∀ p e, st.participantData.find? (fun q => q.id == id) = some p →
      p.chunks.length ≠ 0 → transcribeBody o = some (Except.error e) →
      (stopRecorder id t o st).2 = some (some ⟨p.id, some (p.name.getD p.id), ""⟩)) := by
  refine ⟨?_, ?_, ?_, ?_⟩
  · intro h
    unfold stopRecorder
    rw [h]
  · intro p hp hc
    unfold stopRecorder
    rw [hp]
    simp [hc]
  · intro p hp hc hz
    unfold stopRecorder
    rw [hp]
    simp [hc, hz]
  · intro p e hp hc hb
    have htr : transcribeWithAssemblyAI o = some "" := by
      unfold transcribeWithAssemblyAI
      rw [hb]
    unfold stopRecorder
    rw [hp]
    simp only [if_neg hc]
    split
    · rfl
    · rw [htr]

/-- A participant with a single zero-byte fragment, for the C1 witness. -/
def c1Store : Store := ⟨none, [⟨"a", some "Alice", 1, [⟨0⟩], false⟩]⟩

/-- Claim C1 (witness): with one recorded but empty fragment, the combined
blob has size 0, and `stopRecorder` returns the empty-text entry without
consulting the (erroring) transcription service. -/
theorem C1_witness :
    (stopRecorder "a" 10 (erroringOracle "upload-url" "job-1" "bad audio") c1Store).2
      = some (some ⟨"a", some "Alice", ""⟩) := by
  have h := (C1_amended c1Store "a" 10 (erroringOracle "upload-url" "job-1" "bad audio")).2.2.1
  exact (h ⟨"a", some "Alice", 1, [⟨0⟩], false⟩ (by decide) (by decide) (by decide)).trans
    (by decide)

/-- The assembled aggregate satisfies the id-consistency and time
coherence checks whenever the entry ids mirror the participant ids. -/
theorem wellFormedB_aggregateOf (ps : List ParticipantRecord) (mn : String → Option String)
    (es : List Entry) (s : String) (kp : List String) (mst now : Int)
    (hids : es.map (fun e => e.id) = ps.map (fun p => p.id)) :
    wellFormedB (aggregateOf ps mn es s kp mst now) = true := by
  simp [wellFormedB, consistentIdsB, aggregateOf, hids, List.map_map]

/-- Claim C2: for every chunk-store state and every behaviour of the
collaborators, the aggregate `stopMeeting` hands back does not depend on
the persistence sink at all (a persistence failure is absorbed inside
`saveMeetingSummary` / the surrounding `try`, lines 617-635 and 756-763),
and whenever the call returns, the returned value is a well-formed
Meeting Summary aggregate (consistent `participants` /
`participantNames` / `transcriptions` ids and `duration = endTime -
startTime`). -/
theorem C2_thm (roomId : String) (o : SessionOracles) (pb : PersistOracle)
    (now : Int) (st : Store) :
    stopMeeting roomId o now st = stopMeeting roomId { o with persist := pb } now st ∧
    ((stopMeeting roomId o now st).2.map wellFormedB).getD true = true := by
  constructor
  · rfl
  · cases hb : buildTranscriptions o.memberNames o.transcriber st.participantData with
    | none => simp [stopMeeting, hb]
    | some es =>
      have hids := buildT_ids hb
      simp only [stopMeeting, hb]
      split
      · simp [wellFormedB_aggregateOf _ _ _ _ _ _ _ hids]
      · cases hs : summarizeWithHuggingFace o.hf (fullTranscriptOf es) with
        | none => simp [hs]
        | some sr => simp [hs, wellFormedB_aggregateOf _ _ _ _ _ _ _ hids]

/-- Against a family of erroring transcription services, every entry the
per-participant loop produces has empty text. -/
theorem buildT_erroring_texts (mn : String → Option String) (u j m : String → String) :
    ∀ (ps : List ParticipantRecord) (es : List Entry),
      buildTranscriptions mn (fun pid => erroringOracle (u pid) (j pid) (m pid)) ps = some es →
      ∀ e ∈ es, e.text = "" := by
  intro ps
  induction ps with
  | nil =>
    intro es h e he
    simp only [buildTranscriptions, Option.some.injEq] at h
    subst h
    cases he
  | cons p ps ih =>
    intro es h e he
    simp only [buildTranscriptions] at h
    have htext : (if p.chunks.length = 0 then some ""
        else if blobsSize p.chunks = 0 then some ""
        else transcribeWithAssemblyAI (erroringOracle (u p.id) (j p.id) (m p.id))) = some "" := by
      split
      · rfl
      · split
        · rfl
        · rfl
    rw [htext] at h
    cases hrest : buildTranscriptions mn (fun pid => erroringOracle (u pid) (j pid) (m pid)) ps with
    | none => rw [hrest] at h; exact absurd h (by simp)
    | some es' =>
      rw [hrest] at h
      simp only [Option.some.injEq] at h
      subst h
      rcases List.mem_cons.mp he with he | he
      · subst he; rfl
      · exact ih es' hrest e he

/-- Claim C5: a transcription job whose terminal status is `error` makes
`transcribeWithAssemblyAI` return the empty string without raising, and
when every participant's job errors that way, every Transcript Entry of
the aggregate `stopMeeting` returns has empty text (in particular the
entries of participants with non-empty fragments, whose audio was
actually submitted). -/
theorem C5_thm (a b c : String) (u j m : String → String) (roomId : String)
    (mn : String → Option String) (hf : List (String → HfResponse)) (pers : PersistOracle)
    (now : Int) (st : Store) :
    transcribeWithAssemblyAI (erroringOracle a b c) = some "" ∧
    ((stopMeeting roomId ⟨mn, fun pid => erroringOracle (u pid) (j pid) (m pid), hf, pers⟩
        now st).2.map (fun r => r.transcriptions.all (fun e => e.text == ""))).getD true
      = true := by
  constructor
  · rfl
  · cases hb : buildTranscriptions mn (fun pid => erroringOracle (u pid) (j pid) (m pid))
        st.participantData with
    | none => simp [stopMeeting, hb]
    | some es =>
      have hall : es.all (fun e => e.text == "") = true := by
        rw [List.all_eq_true]
        intro e he
        simp [buildT_erroring_texts mn u j m st.participantData es hb e he]
      simp only [stopMeeting, hb]
      split
      · simp [aggregateOf, hall]
      · cases hs : summarizeWithHuggingFace hf
            (fullTranscriptOf es) with
        | none => simp [hs]
        | some sr => simp [hs, aggregateOf, hall]

/-- Claim C3 (amended): the combined transcript joins *all* entries — an
entry whose text is empty still contributes its name-colon-text line:
every entry's rendered line occurs verbatim in the joined transcript
before the final trim. -/
theorem C3_amended (es : List Entry) (e : Entry) (h : e ∈ es) :
    jsIncludes (joinLines (es.map lineOf)) (lineOf e) = true := by
  induction es with
  | nil => cases h
  | cons a es ih =>
    rcases List.mem_cons.mp h with h' | h'
    · subst h'
      cases es with
      | nil =>
        show listIncludesSeg (lineOf e).data (lineOf e).data = true
        have hx := listIncludesSeg_self_append (lineOf e).data []
        rwa [List.append_nil] at hx
      | cons b bs =>
        show listIncludesSeg (lineOf e).data
          ((lineOf e ++ "\n" ++ joinLines (lineOf b :: bs.map lineOf))).data = true
        rw [String.data_append, String.data_append, List.append_assoc]
        exact listIncludesSeg_self_append _ _
    · cases es with
      | nil => cases h'
      | cons b bs =>
        show listIncludesSeg (lineOf e).data
          ((lineOf a ++ "\n" ++ joinLines (lineOf b :: bs.map lineOf))).data = true
        rw [String.data_append, String.data_append, List.append_assoc]
        apply listIncludesSeg_append_left
        apply listIncludesSeg_append_left
        exact ih h'

/-- Claim C3 (witness): the empty-text entry of the counterexample indeed
contributes its `"Alice: "` line to the joined transcript. -/
theorem C3_witness :
    jsIncludes (joinLines ([⟨"a", some "Alice", ""⟩].map lineOf))
      (lineOf ⟨"a", some "Alice", ""⟩) = true :=
  C3_amended [⟨"a", some "Alice", ""⟩] ⟨"a", some "Alice", ""⟩ (by decide)

/-- Claim C6 (amended): the fallback synthesis fires not only when the
orchestrator's summary is empty or flagged as an error (contains
`error`/`Error` as a substring) but also when its key-point list is
empty; only when all three checks pass are the orchestrator's summary and
key points used unchanged.  The synthesized summary is `"Meeting
discussion: "` followed by the combined transcript truncated to 500
characters (with an ellipsis when longer), and the synthesized key points
split the transcript on sentence punctuation, trim, keep fragments longer
than 10 characters, at most 5. -/
theorem C6_amended (roomId : String) (o : SessionOracles) (now : Int) (st : Store)
    (es : List Entry) (sr : SummaryResult) (r : MeetingSummary)
    (hb : buildTranscriptions o.memberNames o.transcriber st.participantData = some es)
    (hft : (fullTranscriptOf es).length ≠ 0)
    (hs : summarizeWithHuggingFace o.hf (fullTranscriptOf es) = some sr)
    (hr : (stopMeeting roomId o now st).2 = some r) :
    (r.summary, r.keyPoints) =
      (if sr.summary ≠ "" ∧ isErrorFlag sr.summary = false ∧ 0 < sr.keyPoints.length
       then (sr.summary, sr.keyPoints)
       else (fallbackSummary (fullTranscriptOf es), fallbackKeyPoints (fullTranscriptOf es))) := by
  simp only [stopMeeting, hb, hft, if_false, hs] at hr
  simp only [Option.some.injEq] at hr
  subst hr
  rfl

/-- Session oracles whose summarization succeeds with a usable summary. -/
def c6SuccessOracles : SessionOracles :=
  baseOracles [fun _ => hfSuccessResponse "Hello there my friend."]

/-- The aggregate produced in the C6 witness scenario. -/
def c6Record : MeetingSummary :=
  ⟨"Hello there my friend.", ["Hello there my friend"], ["a"], [("a", "Alice")],
    [⟨"a", some "Alice", ""⟩], 99, 1, 100⟩

/-- Claim C6 (witness): when the orchestrator's result is non-empty, not
error-flagged and has key points, `stopMeeting` uses it unchanged. -/
theorem C6_witness :
    (stopMeeting "room" c6SuccessOracles 100 aliceStore).2 = some c6Record ∧
    (c6Record.summary, c6Record.keyPoints)
      = ("Hello there my friend.", ["Hello there my friend"]) := by
  have hr : (stopMeeting "room" c6SuccessOracles 100 aliceStore).2 = some c6Record := by decide
  refine ⟨hr, ?_⟩
  have h := C6_amended "room" c6SuccessOracles 100 aliceStore [⟨"a", some "Alice", ""⟩]
    ⟨"Hello there my friend.", ["Hello there my friend"]⟩ c6Record
    (by decide) (by decide) (by decide) hr
  exact h.trans (by decide)

/-- Session oracles whose summarization succeeds but with a summary whose
sentences are all too short to yield key points. -/
def c6FallbackOracles : SessionOracles :=
  baseOracles [fun _ => hfSuccessResponse "Hi. Ok."]

/-- Claim C6 (counterexample): the orchestrator returns the summary
`"Hi. Ok."` — non-empty and not flagged as an error — with an empty
key-point list, and `stopMeeting` does *not* use it unchanged: it
synthesizes the fallback `"Meeting discussion: Alice:"`, because the code
additionally requires a non-empty key-point list (line 576). -/
theorem C6_counterexample :
    ((stopMeeting "room" c6FallbackOracles 100 aliceStore).2.map
        (fun r => (r.summary, r.keyPoints)))
      = some ("Meeting discussion: Alice:", []) ∧
    summarizeWithHuggingFace c6FallbackOracles.hf (fullTranscriptOf [⟨"a", some "Alice", ""⟩])
      = some ⟨"Hi. Ok.", []⟩ ∧
    decide (("Meeting discussion: Alice:" : String) = "Hi. Ok.") = false := by
  decide

/-- Claim C9: after any sequence of `registerParticipant` / `ingestChunk`
calls from a fresh `Init`, whenever `stopMeeting` returns, every
identifier that received at least one chunk appears exactly once in the
aggregate's `transcriptions`, and the `participants` list, the
`participantNames` keys and the ids of `transcriptions` are consistent. -/
theorem C9_thm (t0 : Int) (ops : List Op) (roomId : String) (o : SessionOracles) (now : Int) :
    ((stopMeeting roomId o now (applyOps (Init t0 emptyStore) ops)).2.map (fun r =>
        ((ingestedIds ops).all
          (fun id => r.transcriptions.countP (fun e => e.id == id) == 1)) &&
        consistentIdsB r)).getD true = true := by
  have hnd : (keysOf (applyOps (Init t0 emptyStore) ops)).Nodup :=
    keysOf_applyOps_nodup ops _ (by simp [keysOf, Init, emptyStore])
  cases hb : buildTranscriptions o.memberNames o.transcriber
      (applyOps (Init t0 emptyStore) ops).participantData with
  | none => simp [stopMeeting, hb]
  | some es =>
    have hids := buildT_ids hb
    have hall : (ingestedIds ops).all
        (fun id => es.countP (fun e => e.id == id) == 1) = true := by
      rw [List.all_eq_true]
      intro id hid
      have hmem : id ∈ keysOf (applyOps (Init t0 emptyStore) ops) :=
        ingested_mem_keysOf ops _ id hid
      have h1 : es.countP (fun e => e.id == id) = 1 := by
        apply countP_id_eq_one
        · rw [hids]; exact hnd
        · rw [hids]; exact hmem
      simp [h1]
    simp only [stopMeeting, hb]
    split
    · simp [aggregateOf, consistentIdsB, hall, hids, List.map_map]
    · cases hs : summarizeWithHuggingFace o.hf (fullTranscriptOf es) with
      | none => simp [hs]
      | some sr => simp [hs, aggregateOf, consistentIdsB, hall, hids, List.map_map]

/-- Claim C10: `stopMeeting` takes the fixed-placeholder path exactly when
the chunk store holds no participant record.  With zero records it
returns the placeholder summary and key points with empty participant and
transcription lists, for every oracle — including one with no
summarization responses, so no summarization call is consulted.  With at
least one record, every rendered line contains the literal `": "`, the
combined transcript is non-empty after trimming, and the Summarization
Orchestrator is consulted even when every entry's text is empty: with an
empty response list the call never returns. -/
theorem C10_thm (roomId : String) (o : SessionOracles) (now : Int) (st : Store) :
    (st.participantData = [] →
      ((stopMeeting roomId o now st).2.map (fun r =>
          (r.summary, r.keyPoints, r.participants, r.transcriptions)))
        = some ("No speech detected during this meeting.",
            ["No audio captured", "Meeting contained silence or technical issues"], [], [])) ∧
    (∀ es, st.participantData ≠ [] →
      buildTranscriptions o.memberNames o.transcriber st.participantData = some es →
      decide (fullTranscriptOf es = "") = false ∧
      (∀ e ∈ es, jsIncludes (lineOf e) ": " = true) ∧
      (stopMeeting roomId { o with hf := [] } now st).2 = none) := by
  constructor
  · intro h
    have hft : (fullTranscriptOf ([] : List Entry)).length = 0 := rfl
    rcases st with ⟨mst, ps⟩
    simp only at h
    subst h
    simp [stopMeeting, buildTranscriptions, hft, aggregateOf]
  · intro es hne hb
    have hids := buildT_ids hb
    obtain ⟨e0, es', rfl⟩ : ∃ e0 es', es = e0 :: es' := by
      cases es with
      | nil =>
        exfalso
        apply hne
        have h0 : st.participantData.map (fun p => p.id) = [] := by
          rw [← hids]; rfl
        exact List.map_eq_nil_iff.mp h0
      | cons e0 es' => exact ⟨e0, es', rfl⟩
    have hcolon : ':' ∈ (joinLines ((e0 :: es').map lineOf)).data :=
      mem_joinLines_head _ _ _ (colon_mem_lineOf e0)
    have hft : fullTranscriptOf (e0 :: es') ≠ "" := by
      unfold fullTranscriptOf
      exact jsTrim_ne_empty _ ':' hcolon rfl
    refine ⟨decide_eq_false hft, ?_, ?_⟩
    · intro e _
      show listIncludesSeg (": ").data (lineOf e).data = true
      unfold lineOf
      rw [String.data_append, String.data_append, List.append_assoc]
      apply listIncludesSeg_append_left
      exact listIncludesSeg_self_append _ _
    · have hb' : buildTranscriptions ({ o with hf := [] } : SessionOracles).memberNames
          ({ o with hf := [] } : SessionOracles).transcriber st.participantData
          = some (e0 :: es') := hb
      have hlen : ¬ (fullTranscriptOf (e0 :: es')).length = 0 :=
        fun hz => hft ((length_zero_iff _).mp hz)
      simp only [stopMeeting, hb', hlen, if_false]
      rfl

/-- Claim C10 (witness): with one (chunkless) participant record and no
summarization responses queued, `stopMeeting` never returns — the
summarization orchestrator is consulted even though every entry's text is
empty. -/
theorem C10_witness :
    (stopMeeting "room" { baseOracles [] with hf := [] } 100 aliceStore).2 = none := by
  have h := (C10_thm "room" (baseOracles []) 100 aliceStore).2 [⟨"a", some "Alice", ""⟩]
    (by decide) (by decide)
  exact h.2.2

end Virtudesk
